import Mathlib

/-
Verification of the terrain-render data pipeline.

The embedding models the Rust sources over exact arithmetic:
* `f64`/`f32` sample values become `ℚ` (the claims under proof concern exact
  identities and order facts that IEEE arithmetic preserves at the inputs used;
  where IEEE produces a non-finite value the model says so explicitly, see
  `Gtiff.normEntry`).
* grid dimensions become `Nat`; the source round-trips them through `f32`
  (`size.width as f32` and back), which is the identity for all values that
  occur (well below 2^24, where `f32` is exact on integers).
* the Rust cast `expr as u16` on an `f32` saturates (Rust reference: float to
  int `as` casts clamp to the target range), so the emitted index is
  `min idx 65535`; the `f32` index arithmetic itself is exact for every value
  below 2^24, which covers every input evaluated here.
* Rust loops that push into a `Vec` become `List.flatMap` / `List.map` over
  `List.range`; `for x in (0..w).rev()` becomes `(List.range w).reverse`.
* `Vec` indexing (`buffer[i]`), which panics out of bounds in Rust, becomes
  `List.getD` with the grid-length hypothesis `buffer.length = w * h` carried
  by the theorems (the ElevationGrid invariant).
-/

/-- A mesh vertex as in `state.rs` / `terrain.rs`: position `[x, y, z]` and
texture coordinate `[u, v]`. -/
structure Vertex where
  position : ℚ × ℚ × ℚ
  tex_coords : ℚ × ℚ
deriving DecidableEq

namespace Gtiff

/-- `buffer.iter().cloned().fold(f64::INFINITY, f64::min)` from `gtiff.rs` and
`terrain.rs`. Folding `min` with an `INFINITY` initial value over a nonempty
list equals folding over the tail with the head as initial value; the `[]`
case (where the Rust fold returns `INFINITY`) is mapped to `0`, and is never
reached by any theorem below (an empty grid produces an empty field). -/
def minVal : List ℚ → ℚ
  | [] => 0
  | v :: rest => rest.foldl min v

/-- `fold(f64::NEG_INFINITY, f64::max)` from `gtiff.rs`, same convention as
`minVal`. -/
def maxVal : List ℚ → ℚ
  | [] => 0
  | v :: rest => rest.foldl max v

/-- One entry of the normalized field: `((v - min_val) / (max_val - min_val)) as f32`
from `gtiff.rs` line 63. When `max_val = min_val` the IEEE division is `0/0`
(every sample equals the common min/max), i.e. NaN; the model returns `none`
for that non-finite outcome and `some` of the exact quotient otherwise. -/
def normEntry (mn mx v : ℚ) : Option ℚ :=
  if mx = mn then none else some ((v - mn) / (mx - mn))

/-- `normalized_data` from `gtiff.rs` lines 60-64: the map of `normEntry` over
the raw buffer, with the global fold min/max. -/
def normalizedField (buffer : List ℚ) : List (Option ℚ) :=
  buffer.map (normEntry (minVal buffer) (maxVal buffer))

/-- The data result of `load_geotiff_as_texture` (`gtiff.rs`): the normalized
field (uploaded as the texture) and the raw buffer, parameterized by whether
DEBUG-level logging is enabled for the function's callsites. The `tracing`
event macros evaluate their field and format expressions lazily, inside the
macro's `if enabled` check, so the debug loop at lines 68-70 indexes
`normalized_data[0]` .. `normalized_data[9]` — panicking (modelled `none`)
when the field has fewer than 10 entries — only when `debugEnabled` is true.
The program installs `tracing_subscriber::fmt::init()` (`lib.rs` line 18),
whose default filter is INFO, i.e. `debugEnabled = false` unless the
environment opts into DEBUG logging. -/
def load_geotiff_as_texture (debugEnabled : Bool) (buffer : List ℚ) :
    Option (List (Option ℚ) × List ℚ) :=
  if debugEnabled ∧ (normalizedField buffer).length < 10 then none
  else some (normalizedField buffer, buffer)

end Gtiff

namespace Terrain

/-- The Rust `as u16` cast applied to a nonnegative integral `f32`: values
above `u16::MAX` clamp to `65535`. -/
def sat (n : Nat) : Nat := min n 65535

/-- The vertex pushed for grid cell `(x, y)` in `terrain.rs` lines 21-26:
position `[x, (buffer[y*w+x] - minimum_value) / 30.0, y]`, texture coordinate
`[x / width, y / height]`. -/
def mkVertex (w h : Nat) (buffer : List ℚ) (y x : Nat) : Vertex :=
  { position := ((x : ℚ), (buffer.getD (y * w + x) 0 - Gtiff.minVal buffer) / 30, (y : ℚ)),
    tex_coords := ((x : ℚ) / (w : ℚ), (y : ℚ) / (h : ℚ)) }

/-- The vertex list of `texture_to_vertices` (`terrain.rs` lines 19-28):
row-major over `y in 0..h`, `x in 0..w`. -/
def vertices (w h : Nat) (buffer : List ℚ) : List Vertex :=
  (List.range h).flatMap (fun y => (List.range w).map (mkVertex w h buffer y))

/-- The two indices pushed per column in `terrain.rs` lines 33-34 / 39-40,
with the saturating `as u16` cast applied. -/
def idxPair (w y x : Nat) : List Nat :=
  [sat (y * w + x), sat ((y + 1) * w + x)]

/-- One row's contribution to the index buffer (`terrain.rs` lines 31-42):
even rows walk columns ascending, odd rows descending. -/
def rowIndices (w y : Nat) : List Nat :=
  if y % 2 = 0 then (List.range w).flatMap (idxPair w y)
  else (List.range w).reverse.flatMap (idxPair w y)

/-- The index list of `texture_to_vertices` (`terrain.rs` lines 30-43):
rows `y in 0..h-1` in order. -/
def indices (w h : Nat) : List Nat :=
  (List.range (h - 1)).flatMap (rowIndices w)

/-- The full result of `texture_to_vertices`. -/
def texture_to_vertices (w h : Nat) (buffer : List ℚ) : List Vertex × List Nat :=
  (vertices w h buffer, indices w h)

/-- Written from the spec text, for comparison with `indices`: the index
stream as section 4.2 describes it — for each row the pair
`(row*width+col, (row+1)*width+col)`, columns ascending on even rows and
descending on odd rows, with no 16-bit cast. -/
def specIdxPair (w y x : Nat) : List Nat :=
  [y * w + x, (y + 1) * w + x]

/-- Written from the spec text: one row of `specIndices`. -/
def specRowIndices (w y : Nat) : List Nat :=
  if y % 2 = 0 then (List.range w).flatMap (specIdxPair w y)
  else (List.range w).reverse.flatMap (specIdxPair w y)

/-- Written from the spec text: the whole index stream of section 4.2. -/
def specIndices (w h : Nat) : List Nat :=
  (List.range (h - 1)).flatMap (specRowIndices w)

end Terrain

namespace App

/-- The fields of `State` (`state.rs`) that `State::resize` touches: the
stored window size, the surface configuration extent, and the projection's
aspect ratio. -/
structure State where
  size : Nat × Nat
  config_size : Nat × Nat
  aspect : ℚ
deriving DecidableEq

/-- Modelled from the spec: `Projection::resize` lives in `camera.rs`, which
is not among the provided sources; section 4.3 states that on resize the
aspect is recomputed as `new_width / new_height`. -/
def Projection.resizeAspect (w h : Nat) : ℚ := (w : ℚ) / (h : ℚ)

/-- `State::resize` (`state.rs` lines 482-492): guarded by
`new_size.width > 0 && new_size.height > 0`; inside the guard it stores the
new size, updates the surface configuration, and resizes the projection;
outside the guard it does nothing. -/
def State.resize (s : State) (w h : Nat) : State :=
  if 0 < w ∧ 0 < h then
    { size := (w, h), config_size := (w, h), aspect := Projection.resizeAspect w h }
  else s

end App

section FoldHelpers

theorem foldl_min_le_init (l : List ℚ) : ∀ a : ℚ, l.foldl min a ≤ a := by
  induction l with
  | nil => intro a; exact le_refl a
  | cons x xs ih => intro a; exact le_trans (ih (min a x)) (min_le_left a x)

theorem foldl_min_le_mem (l : List ℚ) : ∀ (a v : ℚ), v ∈ l → l.foldl min a ≤ v := by
  induction l with
  | nil => intro a v hv; cases hv
  | cons x xs ih =>
      intro a v hv
      rcases List.mem_cons.1 hv with h | h
      · subst h
        exact le_trans (foldl_min_le_init xs (min a v)) (min_le_right a v)
      · exact ih (min a x) v h

theorem init_le_foldl_max (l : List ℚ) : ∀ a : ℚ, a ≤ l.foldl max a := by
  induction l with
  | nil => intro a; exact le_refl a
  | cons x xs ih => intro a; exact le_trans (le_max_left a x) (ih (max a x))

theorem mem_le_foldl_max (l : List ℚ) : ∀ (a v : ℚ), v ∈ l → v ≤ l.foldl max a := by
  induction l with
  | nil => intro a v hv; cases hv
  | cons x xs ih =>
      intro a v hv
      rcases List.mem_cons.1 hv with h | h
      · subst h
        exact le_trans (le_max_right a v) (init_le_foldl_max xs (max a v))
      · exact ih (max a x) v h

theorem minVal_le (l : List ℚ) (v : ℚ) (hv : v ∈ l) : Gtiff.minVal l ≤ v := by
  cases l with
  | nil => cases hv
  | cons x xs =>
      rcases List.mem_cons.1 hv with h | h
      · subst h; exact foldl_min_le_init xs v
      · exact foldl_min_le_mem xs x v h

theorem le_maxVal (l : List ℚ) (v : ℚ) (hv : v ∈ l) : v ≤ Gtiff.maxVal l := by
  cases l with
  | nil => cases hv
  | cons x xs =>
      rcases List.mem_cons.1 hv with h | h
      · subst h; exact init_le_foldl_max xs v
      · exact mem_le_foldl_max xs x v h

end FoldHelpers

section ListHelpers

theorem length_bind_const {α β : Type} (k : Nat) :
    ∀ (l : List α) (f : α → List β), (∀ a ∈ l, (f a).length = k) →
      (l.flatMap f).length = l.length * k := by
  intro l
  induction l with
  | nil => intro f _; simp
  | cons x xs ih =>
      intro f hf
      simp only [List.flatMap_cons, List.length_append, List.length_cons]
      rw [ih f (fun a ha => hf a (List.mem_cons_of_mem x ha)),
        hf x (List.mem_cons_self x xs)]
      ring

theorem bind_congr_mem {α β : Type} :
    ∀ (l : List α) (f g : α → List β), (∀ a ∈ l, f a = g a) → l.flatMap f = l.flatMap g := by
  intro l
  induction l with
  | nil => intro f g _; rfl
  | cons x xs ih =>
      intro f g hfg
      simp only [List.flatMap_cons]
      rw [hfg x (List.mem_cons_self x xs),
        ih f g (fun a ha => hfg a (List.mem_cons_of_mem x ha))]

theorem grid_length {α : Type} (w h : Nat) (f : Nat → Nat → α) :
    ((List.range h).flatMap (fun y => (List.range w).map (f y))).length = h * w := by
  rw [length_bind_const w (List.range h) (fun y => (List.range w).map (f y))
    (fun a _ => by simp), List.length_range]

theorem grid_get {α : Type} (w : Nat) (f : Nat → Nat → α) :
    ∀ (h y x : Nat), y < h → x < w →
      ((List.range h).flatMap (fun y => (List.range w).map (f y))).get? (y * w + x) =
        some (f y x) := by
  intro h
  induction h with
  | zero => intro y x hy _; exact absurd hy (Nat.not_lt_zero y)
  | succ n ih =>
      intro y x hy hx
      rw [List.range_succ, List.flatMap_append]
      rcases Nat.lt_or_ge y n with h1 | h1
      · rw [List.get?_append]
        · exact ih y x h1 hx
        · rw [grid_length]
          calc y * w + x < y * w + w := by omega
            _ = (y + 1) * w := by ring
            _ ≤ n * w := Nat.mul_le_mul_right w (by omega)
      · have hyn : y = n := by omega
        subst hyn
        rw [List.get?_append_right]
        · rw [grid_length]
          have hsub : y * w + x - y * w = x := by omega
          simp only [List.flatMap_cons, List.flatMap_nil, List.append_nil, hsub,
            List.get?_map, List.get?_range hx]
          rfl
        · rw [grid_length]; omega

end ListHelpers

section IndexHelpers

theorem mem_rowIndices (w y i : Nat) (hi : i ∈ Terrain.rowIndices w y) :
    ∃ x, x < w ∧ (i = Terrain.sat (y * w + x) ∨ i = Terrain.sat ((y + 1) * w + x)) := by
  unfold Terrain.rowIndices at hi
  split at hi
  · rcases List.mem_flatMap.1 hi with ⟨x, hx, hmem⟩
    exact ⟨x, List.mem_range.1 hx, by simpa [Terrain.idxPair] using hmem⟩
  · rcases List.mem_flatMap.1 hi with ⟨x, hx, hmem⟩
    rw [List.mem_reverse] at hx
    exact ⟨x, List.mem_range.1 hx, by simpa [Terrain.idxPair] using hmem⟩

theorem indices_le_max16 (w h i : Nat) (hi : i ∈ Terrain.indices w h) : i ≤ 65535 := by
  unfold Terrain.indices at hi
  rcases List.mem_flatMap.1 hi with ⟨y, _, hrow⟩
  rcases mem_rowIndices w y i hrow with ⟨x, _, h1 | h1⟩ <;>
    (subst h1; exact min_le_right _ _)

theorem rowIndices_length (w y : Nat) : (Terrain.rowIndices w y).length = 2 * w := by
  unfold Terrain.rowIndices
  split
  · rw [length_bind_const 2 (List.range w) (Terrain.idxPair w y) (fun a _ => rfl),
      List.length_range]
    ring
  · rw [length_bind_const 2 (List.range w).reverse (Terrain.idxPair w y) (fun a _ => rfl),
      List.length_reverse, List.length_range]
    ring

theorem indices_length (w h : Nat) : (Terrain.indices w h).length = 2 * w * (h - 1) := by
  unfold Terrain.indices
  rw [length_bind_const (2 * w) (List.range (h - 1)) (Terrain.rowIndices w)
    (fun a _ => rowIndices_length w a), List.length_range]
  ring

theorem mem_spec_65791 : (65791 : Nat) ∈ Terrain.specIndices 257 256 := by
  unfold Terrain.specIndices
  refine List.mem_flatMap.2 ⟨254, List.mem_range.2 (by norm_num), ?_⟩
  unfold Terrain.specRowIndices
  rw [if_pos (by norm_num)]
  refine List.mem_flatMap.2 ⟨256, List.mem_range.2 (by norm_num), ?_⟩
  decide

theorem mem_indices_65535 : (65535 : Nat) ∈ Terrain.indices 257 256 := by
  unfold Terrain.indices
  refine List.mem_flatMap.2 ⟨254, List.mem_range.2 (by norm_num), ?_⟩
  unfold Terrain.rowIndices
  rw [if_pos (by norm_num)]
  refine List.mem_flatMap.2 ⟨256, List.mem_range.2 (by norm_num), ?_⟩
  decide

theorem row_eq_spec (w h y : Nat) (hb : w * h ≤ 65536) (hy : y < h - 1) :
    Terrain.rowIndices w y = Terrain.specRowIndices w y := by
  have key : ∀ x ∈ List.range w, Terrain.idxPair w y x = Terrain.specIdxPair w y x := by
    intro x hx
    have hx' := List.mem_range.1 hx
    have h2 : y + 2 ≤ h := by omega
    have hbig : (y + 1) * w + x < w * h := by
      calc (y + 1) * w + x < (y + 1) * w + w := by omega
        _ = (y + 2) * w := by ring
        _ ≤ h * w := Nat.mul_le_mul_right w h2
        _ = w * h := Nat.mul_comm h w
    have hsmall : y * w + x ≤ (y + 1) * w + x :=
      Nat.add_le_add_right (Nat.mul_le_mul_right w (Nat.le_succ y)) x
    have e1 : Terrain.sat (y * w + x) = y * w + x := by
      unfold Terrain.sat; omega
    have e2 : Terrain.sat ((y + 1) * w + x) = (y + 1) * w + x := by
      unfold Terrain.sat; omega
    simp [Terrain.idxPair, Terrain.specIdxPair, e1, e2]
  unfold Terrain.rowIndices Terrain.specRowIndices
  split
  · exact bind_congr_mem _ _ _ key
  · exact bind_congr_mem _ _ _ (fun x hx => key x (List.mem_reverse.1 hx))

end IndexHelpers

/-- C1 (amended): for every grid with `w ≥ 1`, `h ≥ 1` whose vertex count fits
the 16-bit index type (`w * h ≤ 65536`), the index buffer of
`texture_to_vertices` is exactly the concatenation, over rows `y = 0 .. h-2`
in order, of the pairs `(y*w+x, (y+1)*w+x)`, columns ascending on even rows
and descending on odd rows. The bound is forced by the counterexample
`C1_cex`: on larger grids the `as u16` cast saturates the emitted indices. -/
theorem C1_indices_match_spec (w h : Nat) (hw : 1 ≤ w) (hh : 1 ≤ h)
    (hb : w * h ≤ 65536) : Terrain.indices w h = Terrain.specIndices w h := by
  unfold Terrain.indices Terrain.specIndices
  exact bind_congr_mem _ _ _ (fun y hy => row_eq_spec w h y hb (List.mem_range.1 hy))

/-- C1 witness: the claim instantiated at the 3×3 grid, including the spec's
concrete expectation that row 1 contributes `[5,8,4,7,3,6]` after row 0's
`[0,3,1,4,2,5]`. -/
theorem C1_witness :
    Terrain.indices 3 3 = Terrain.specIndices 3 3 ∧
    Terrain.indices 3 3 = [0, 3, 1, 4, 2, 5, 5, 8, 4, 7, 3, 6] :=
  ⟨C1_indices_match_spec 3 3 (by norm_num) (by norm_num) (by norm_num), by decide⟩

/-- C1 counterexample: on the 257×256 grid (`w*h = 65792 > 65536`) the emitted
index buffer is not the spec's concatenation: the spec stream contains the
raw index 65791, but every emitted index is clamped to at most 65535 by the
`as u16` cast. -/
theorem C1_cex : Terrain.indices 257 256 ≠ Terrain.specIndices 257 256 := by
  intro heq
  have h1 := mem_spec_65791
  rw [← heq] at h1
  exact absurd (indices_le_max16 257 256 65791 h1) (by norm_num)

/-- C2: evaluated at width 257, height 256 (`w*h = 65792 > 65536`), the mesh
builder does not reject the grid — it emits the full stream of
`2*257*255` indices (its return type has no error channel at all) — and the
emitted values are silently saturated: 65535 appears where the zig-zag stream
calls for vertex 65791, and 65791 itself never appears. -/
theorem C2_oversized_not_rejected :
    (Terrain.indices 257 256).length = 2 * 257 * (256 - 1) ∧
    (65535 : Nat) ∈ Terrain.indices 257 256 ∧
    (65791 : Nat) ∈ Terrain.specIndices 257 256 ∧
    (65791 : Nat) ∉ Terrain.indices 257 256 := by
  refine ⟨indices_length 257 256, mem_indices_65535, mem_spec_65791, ?_⟩
  intro hmem
  exact absurd (indices_le_max16 257 256 65791 hmem) (by norm_num)

/-- C3: for every grid with `w ≥ 1` and `h ≥ 1` the mesh builder returns
exactly `w*h` vertices and exactly `2*w*(h-1)` indices. -/
theorem C3_counts (w h : Nat) (buffer : List ℚ) (hw : 1 ≤ w) (hh : 1 ≤ h) :
    (Terrain.vertices w h buffer).length = w * h ∧
    (Terrain.indices w h).length = 2 * w * (h - 1) := by
  constructor
  · unfold Terrain.vertices
    rw [grid_length w h (Terrain.mkVertex w h buffer)]
    exact Nat.mul_comm h w
  · exact indices_length w h

/-- C3 witness: the counts at the 2×3 grid. -/
theorem C3_witness :
    (Terrain.vertices 2 3 [0, 1, 2, 3, 4, 5]).length = 2 * 3 ∧
    (Terrain.indices 2 3).length = 2 * 2 * (3 - 1) :=
  C3_counts 2 3 [0, 1, 2, 3, 4, 5] (by norm_num) (by norm_num)

/-- C4: whenever the global maximum strictly exceeds the global minimum, every
entry of the normalized field is a finite value in `[0, 1]`, every position
holding the global minimum maps to `0`, and every position holding the global
maximum maps to `1`. -/
theorem C4_normalized_bounds (l : List ℚ) (hlt : Gtiff.minVal l < Gtiff.maxVal l) :
    (∀ o ∈ Gtiff.normalizedField l, ∃ q, o = some q ∧ 0 ≤ q ∧ q ≤ 1) ∧
    (∀ i, l.get? i = some (Gtiff.minVal l) →
      (Gtiff.normalizedField l).get? i = some (some 0)) ∧
    (∀ i, l.get? i = some (Gtiff.maxVal l) →
      (Gtiff.normalizedField l).get? i = some (some 1)) := by
  have hne : Gtiff.maxVal l ≠ Gtiff.minVal l := ne_of_gt hlt
  have hpos : (0 : ℚ) < Gtiff.maxVal l - Gtiff.minVal l := sub_pos.2 hlt
  refine ⟨?_, ?_, ?_⟩
  · intro o ho
    rcases List.mem_map.1 ho with ⟨v, hv, rfl⟩
    refine ⟨(v - Gtiff.minVal l) / (Gtiff.maxVal l - Gtiff.minVal l), ?_, ?_, ?_⟩
    · simp [Gtiff.normEntry, hne]
    · exact div_nonneg (sub_nonneg.2 (minVal_le l v hv)) hpos.le
    · rw [div_le_one hpos]
      exact sub_le_sub_right (le_maxVal l v hv) _
  · intro i hi
    unfold Gtiff.normalizedField
    rw [List.get?_map, hi]
    simp [Gtiff.normEntry, hne]
  · intro i hi
    unfold Gtiff.normalizedField
    rw [List.get?_map, hi]
    simp [Gtiff.normEntry, hne, div_self hpos.ne']

/-- C4 witness: the normalization property at the buffer `[3, 1, 2]`. -/
theorem C4_witness :
    (∀ o ∈ Gtiff.normalizedField [3, 1, 2], ∃ q, o = some q ∧ 0 ≤ q ∧ q ≤ 1) ∧
    (∀ i, ([3, 1, 2] : List ℚ).get? i = some (Gtiff.minVal [3, 1, 2]) →
      (Gtiff.normalizedField [3, 1, 2]).get? i = some (some 0)) ∧
    (∀ i, ([3, 1, 2] : List ℚ).get? i = some (Gtiff.maxVal [3, 1, 2]) →
      (Gtiff.normalizedField [3, 1, 2]).get? i = some (some 1)) :=
  C4_normalized_bounds [3, 1, 2]
    (by norm_num [Gtiff.minVal, Gtiff.maxVal, min_def, max_def])

/-- C5: the vertex at list index `y*w+x` has position
`(x, (sample - reference_minimum) / 30, y)` where the reference minimum is the
global minimum of the buffer (second conjunct) and the scale divisor is the
fixed constant 30; the mapping is a pure function of the grid and buffer. -/
theorem C5_vertex_position (w h y x : Nat) (buffer : List ℚ)
    (hlen : buffer.length = w * h) (hy : y < h) (hx : x < w) :
    (Terrain.vertices w h buffer).get? (y * w + x) =
      some { position := ((x : ℚ),
               (buffer.getD (y * w + x) 0 - Gtiff.minVal buffer) / 30, (y : ℚ)),
             tex_coords := ((x : ℚ) / (w : ℚ), (y : ℚ) / (h : ℚ)) } ∧
    (∀ v ∈ buffer, Gtiff.minVal buffer ≤ v) := by
  constructor
  · have hg := grid_get w (Terrain.mkVertex w h buffer) h y x hy hx
    unfold Terrain.vertices
    exact hg
  · exact fun v hv => minVal_le buffer v hv

/-- C5 witness: the vertex formula at cell `(x, y) = (0, 1)` of a 2×2 grid. -/
theorem C5_witness :
    (Terrain.vertices 2 2 [0, 1, 2, 3]).get? (1 * 2 + 0) =
      some { position := (((0 : Nat) : ℚ),
               (([0, 1, 2, 3] : List ℚ).getD (1 * 2 + 0) 0 - Gtiff.minVal [0, 1, 2, 3]) / 30,
               ((1 : Nat) : ℚ)),
             tex_coords := (((0 : Nat) : ℚ) / ((2 : Nat) : ℚ),
               ((1 : Nat) : ℚ) / ((2 : Nat) : ℚ)) } ∧
    (∀ v ∈ ([0, 1, 2, 3] : List ℚ), Gtiff.minVal [0, 1, 2, 3] ≤ v) :=
  C5_vertex_position 2 2 1 0 [0, 1, 2, 3] (by norm_num) (by norm_num) (by norm_num)

/-- C6 counterexample: on a 2×2 grid the vertex at the last column
(`x = 1 = width-1`, row 0, list index 1) has texture coordinate `u = 1/2`,
not `1.0`: the code divides by `width`, not `width - 1`. -/
theorem C6_cex :
    ((Terrain.vertices 2 2 [0, 1, 2, 3]).get? (0 * 2 + 1)).map Vertex.tex_coords =
      some (1 / 2, 0) ∧ ((1 : ℚ) / 2 ≠ 1) := by
  constructor
  · have hg := grid_get 2 (Terrain.mkVertex 2 2 [0, 1, 2, 3]) 2 0 1
      (by norm_num) (by norm_num)
    unfold Terrain.vertices
    rw [hg]
    norm_num [Terrain.mkVertex]
  · norm_num

/-- C6 (amended): the texture coordinates follow the sample-fraction
convention `(u, v) = (x / width, y / height)`; in particular the last column
carries `u = (width-1)/width`, which is strictly below `1.0`, not equal to
it. -/
theorem C6_tex_sample_fraction (w h y x : Nat) (buffer : List ℚ)
    (hw : 2 ≤ w) (hh : 2 ≤ h) (hy : y < h) (hx : x < w) :
    ((Terrain.vertices w h buffer).get? (y * w + x)).map Vertex.tex_coords =
      some ((x : ℚ) / (w : ℚ), (y : ℚ) / (h : ℚ)) := by
  have hg := grid_get w (Terrain.mkVertex w h buffer) h y x hy hx
  unfold Terrain.vertices
  rw [hg]
  rfl

/-- C6 witness: the sample-fraction coordinate at the last column of a 2×2
grid. -/
theorem C6_witness :
    ((Terrain.vertices 2 2 [0, 1, 2, 3]).get? (0 * 2 + 1)).map Vertex.tex_coords =
      some (((1 : Nat) : ℚ) / ((2 : Nat) : ℚ), ((0 : Nat) : ℚ) / ((2 : Nat) : ℚ)) :=
  C6_tex_sample_fraction 2 2 0 1 [0, 1, 2, 3]
    (by norm_num) (by norm_num) (by norm_num) (by norm_num)

/-- C7: evaluated at a flat 10-sample grid (all samples 5) the loader performs
no detection at all: min equals max, yet it returns successfully — under
either logging configuration — and every entry of the normalized field is the
non-finite `0/0` outcome (`none` models the IEEE NaN). -/
theorem C7_flat_not_detected :
    Gtiff.minVal [5, 5, 5, 5, 5, 5, 5, 5, 5, 5] =
      Gtiff.maxVal [5, 5, 5, 5, 5, 5, 5, 5, 5, 5] ∧
    Gtiff.load_geotiff_as_texture false [5, 5, 5, 5, 5, 5, 5, 5, 5, 5] =
      some ([none, none, none, none, none, none, none, none, none, none],
        [5, 5, 5, 5, 5, 5, 5, 5, 5, 5]) ∧
    Gtiff.load_geotiff_as_texture true [5, 5, 5, 5, 5, 5, 5, 5, 5, 5] =
      some ([none, none, none, none, none, none, none, none, none, none],
        [5, 5, 5, 5, 5, 5, 5, 5, 5, 5]) := by
  refine ⟨?_, ?_, ?_⟩
  · norm_num [Gtiff.minVal, Gtiff.maxVal, min_self, max_self]
  · norm_num [Gtiff.load_geotiff_as_texture, Gtiff.normalizedField, Gtiff.normEntry,
      Gtiff.minVal, Gtiff.maxVal, min_self, max_self]
  · norm_num [Gtiff.load_geotiff_as_texture, Gtiff.normalizedField, Gtiff.normEntry,
      Gtiff.minVal, Gtiff.maxVal, min_self, max_self]

/-- C8: for every grid with `w ≥ 1`, `h ≥ 1` and `w*h ≤ 65536`, every emitted
index refers to an existing vertex: it is strictly below `w*h`. -/
theorem C8_indices_in_range (w h : Nat) (hw : 1 ≤ w) (hh : 1 ≤ h)
    (hb : w * h ≤ 65536) : ∀ i ∈ Terrain.indices w h, i < w * h := by
  intro i hi
  unfold Terrain.indices at hi
  rcases List.mem_flatMap.1 hi with ⟨y, hy, hrow⟩
  have hy' := List.mem_range.1 hy
  rcases mem_rowIndices w y i hrow with ⟨x, hx, hcase⟩
  have h2 : y + 2 ≤ h := by omega
  have hbig : (y + 1) * w + x < w * h := by
    calc (y + 1) * w + x < (y + 1) * w + w := by omega
      _ = (y + 2) * w := by ring
      _ ≤ h * w := Nat.mul_le_mul_right w h2
      _ = w * h := Nat.mul_comm h w
  have hmono : y * w + x ≤ (y + 1) * w + x :=
    Nat.add_le_add_right (Nat.mul_le_mul_right w (Nat.le_succ y)) x
  rcases hcase with hc | hc <;> rw [hc] <;> unfold Terrain.sat <;> omega

/-- C8 witness: index range safety at the 3×3 grid, instantiated at the
emitted index 8. -/
theorem C8_witness : (8 : Nat) ∈ Terrain.indices 3 3 ∧ (8 : Nat) < 3 * 3 :=
  ⟨by decide,
   C8_indices_in_range 3 3 (by norm_num) (by norm_num) (by norm_num) 8 (by decide)⟩

/-- C9: a resize event with zero width or zero height is a no-op: the stored
size, the surface configuration extent, and the projection aspect ratio are
all left unchanged (the aspect division is never evaluated in that case). -/
theorem C9_resize_zero_noop (s : App.State) (w h : Nat) (hz : w = 0 ∨ h = 0) :
    App.State.resize s w h = s := by
  unfold App.State.resize
  rw [if_neg]
  rintro ⟨h1, h2⟩
  rcases hz with rfl | rfl
  · exact absurd h1 (lt_irrefl 0)
  · exact absurd h2 (lt_irrefl 0)

/-- C9 witness: resizing a concrete state to width 0 changes nothing. -/
theorem C9_witness :
    App.State.resize ⟨(800, 600), (800, 600), (4 : ℚ) / 3⟩ 0 600 =
      ⟨(800, 600), (800, 600), (4 : ℚ) / 3⟩ :=
  C9_resize_zero_noop ⟨(800, 600), (800, 600), (4 : ℚ) / 3⟩ 0 600 (Or.inl rfl)

/-- C10 counterexample: with the program's default logging configuration
(`tracing_subscriber::fmt::init()` filters at INFO, so DEBUG is disabled and
the event macros skip their lazily evaluated fields), a successfully read 1×2
raster — fewer than 10 samples — loads and returns its data; the load does
not fail, refuting the claim that the debug read is unconditional and that a
successful return requires at least 10 samples. -/
theorem C10_cex :
    Gtiff.load_geotiff_as_texture false [1, 2] =
      some (Gtiff.normalizedField [1, 2], [1, 2]) ∧
    Gtiff.load_geotiff_as_texture false [1, 2] ≠ none := by
  constructor
  · unfold Gtiff.load_geotiff_as_texture
    rw [if_neg]
    rintro ⟨hf, -⟩
    simp at hf
  · unfold Gtiff.load_geotiff_as_texture
    rw [if_neg]
    · exact Option.some_ne_none _
    · rintro ⟨hf, -⟩
      simp at hf

/-- C10 (amended): the loader's debug read of the first 10 normalized entries
runs only when DEBUG-level logging is enabled at the callsite (the `tracing`
macros evaluate their fields lazily). With DEBUG enabled, a successfully read
raster with fewer than 10 samples fails with an out-of-bounds access instead
of returning, and a return requires `w*h ≥ 10`; with DEBUG disabled — the
default INFO filter — the loader returns regardless of the sample count. -/
theorem C10_debug_gated (w h : Nat) (l : List ℚ) (hlen : l.length = w * h) :
    (w * h < 10 → Gtiff.load_geotiff_as_texture true l = none) ∧
    (10 ≤ w * h → Gtiff.load_geotiff_as_texture true l =
      some (Gtiff.normalizedField l, l)) ∧
    (Gtiff.load_geotiff_as_texture false l = some (Gtiff.normalizedField l, l)) := by
  have hfl : (Gtiff.normalizedField l).length = w * h := by
    simp [Gtiff.normalizedField, hlen]
  refine ⟨?_, ?_, ?_⟩
  · intro hsm
    unfold Gtiff.load_geotiff_as_texture
    rw [if_pos ⟨rfl, by rw [hfl]; exact hsm⟩]
  · intro hge
    unfold Gtiff.load_geotiff_as_texture
    rw [if_neg]
    rintro ⟨-, hlt⟩
    rw [hfl] at hlt
    omega
  · unfold Gtiff.load_geotiff_as_texture
    rw [if_neg]
    rintro ⟨hf, -⟩
    simp at hf

/-- C10 witness: with DEBUG enabled a 1×2 raster fails the debug read and a
3×4 raster returns; with DEBUG disabled both return. -/
theorem C10_witness :
    ((1 * 2 < 10 → Gtiff.load_geotiff_as_texture true [1, 2] = none) ∧
      (10 ≤ 1 * 2 → Gtiff.load_geotiff_as_texture true [1, 2] =
        some (Gtiff.normalizedField [1, 2], [1, 2])) ∧
      (Gtiff.load_geotiff_as_texture false [1, 2] =
        some (Gtiff.normalizedField [1, 2], [1, 2]))) ∧
    ((3 * 4 < 10 →
        Gtiff.load_geotiff_as_texture true [0, 1, 2, 3, 4, 5, 6, 7, 8, 9, 10, 11] = none) ∧
      (10 ≤ 3 * 4 →
        Gtiff.load_geotiff_as_texture true [0, 1, 2, 3, 4, 5, 6, 7, 8, 9, 10, 11] =
          some (Gtiff.normalizedField [0, 1, 2, 3, 4, 5, 6, 7, 8, 9, 10, 11],
            [0, 1, 2, 3, 4, 5, 6, 7, 8, 9, 10, 11])) ∧
      (Gtiff.load_geotiff_as_texture false [0, 1, 2, 3, 4, 5, 6, 7, 8, 9, 10, 11] =
        some (Gtiff.normalizedField [0, 1, 2, 3, 4, 5, 6, 7, 8, 9, 10, 11],
          [0, 1, 2, 3, 4, 5, 6, 7, 8, 9, 10, 11]))) :=
  ⟨C10_debug_gated 1 2 [1, 2] (by norm_num),
   C10_debug_gated 3 4 [0, 1, 2, 3, 4, 5, 6, 7, 8, 9, 10, 11] (by norm_num)⟩
